import Mathlib

/-!
# Verification of the Drawdance paint engine (`src/libengine/dpengine/paint_engine.c`)

A shallow embedding of the paint engine's message intake, batching, teardown,
local-view and tick logic, together with theorems settling the claims about it.

Modelling conventions:
* Messages (`DP_Message`) are immutable records; the reference count bookkeeping
  is modelled through explicit effect lists where a claim is about it.
* C `uint8_t` arithmetic is `Nat` with `% 256` where wraparound matters.
* External collaborators (canvas history, canvas state internals, ACL filter)
  are parameters (oracle functions) exactly at the points where the paint
  engine source calls out to them; all control flow of the paint engine itself
  is translated from the source.
-/

namespace Drawdance

/-- ACL filter state, opaque to the paint engine (`DP_AclState *`). -/
abbrev AclSt := Nat

/-- Maximum number of multidab messages in a single go (paint_engine.c line 199). -/
def MAX_MULTIDAB_MESSAGES : Nat := 1024

/-- Largest area that all dabs together are allowed to cover (line 201). -/
def MAX_MULTIDAB_AREA : Nat := 256 * 256 * 16

/-- Threshold that the first message must not exceed to keep shifting more
messages (line 205). -/
def MAX_MULTIDAB_AREA_THRESHOLD : Nat := MAX_MULTIDAB_AREA / 2

/-- `DP_ACL_STATE_FILTERED_BIT`: bit 0x01 of the ACL filter result.
Modelled from the spec: the ACL header is not under src/; §6 fixes the
FILTERED bit as 0x01. -/
def DP_ACL_STATE_FILTERED_BIT : Nat := 1

/-- `DP_ACL_STATE_CHANGE_MASK`. Modelled from the spec: the ACL header is not
under src/; §6 says the result is a u8 with a FILTERED bit (0x01) and CHANGE
bits, so the change mask is taken to be the remaining bits of the byte. -/
def DP_ACL_STATE_CHANGE_MASK : Nat := 254

/-- The draw-dabs message families (`DP_MSG_DRAW_DABS_*`). -/
inductive DabsFamily where
  | classic
  | pixel
  | pixelSquare
  | mypaint
deriving DecidableEq

/-- Payload of an internal preview-install message: either the address of the
distinguished `null_preview` sentinel or a real preview, identified by a
number standing for its allocation. -/
inductive PreviewPayload where
  | nullPreview
  | real (id : Nat)
deriving DecidableEq

/-- Internal message bodies (`DP_MsgInternalType` plus payloads, msg_internal.h). -/
inductive InternalBody where
  | reset
  | softReset
  | snapshot
  | catchup (progress : Int)
  | preview (payload : PreviewPayload)
deriving DecidableEq

/-- Message bodies as the paint engine distinguishes them. Draw-dabs messages
carry the list of raw dab `size` fields of their dabs; the remaining dab
fields are irrelevant to every claim here. `otherMeta`/`otherCommand` stand
for the message types the paint engine does not inspect beyond their type
code. -/
inductive MsgBody where
  | internal (b : InternalBody)
  | laserTrail (persistence : Nat) (color : Nat)
  | movePointer (x y : Int)
  | defaultLayer (layerId : Nat)
  | otherMeta (code : Nat)
  | drawDabs (fam : DabsFamily) (sizes : List Nat)
  | otherCommand (code : Nat)
deriving DecidableEq

/-- A `DP_Message`: reference-counted record with a context id and a body.
`uid` identifies the allocation, so that reference-count effects can be
attributed to a message. -/
structure Msg where
  uid : Nat
  contextId : Nat
  body : MsgBody
deriving DecidableEq

/-- The pseudo message type `DP_MSG_INTERNAL`. The exact numeric value is
irrelevant; the encoding in `msgType` keeps it distinct from all meta and
command type codes. -/
def DP_MSG_INTERNAL : Nat := 0

/-- Numeric message type (`DP_message_type`). Meta messages get codes in
1..127, commands codes ≥ 128, mirroring the protocol's split that
`is_internal_or_command` relies on. -/
def msgType : MsgBody → Nat
  | .internal _ => DP_MSG_INTERNAL
  | .laserTrail _ _ => 65
  | .movePointer _ _ => 64
  | .defaultLayer _ => 33
  | .otherMeta code => 1 + code % 127
  | .drawDabs .classic _ => 148
  | .drawDabs .pixel _ => 149
  | .drawDabs .pixelSquare _ => 150
  | .drawDabs .mypaint _ => 151
  | .otherCommand code => 128 + code

/-- `is_internal_or_command` (line 640): `type >= 128 || type == DP_MSG_INTERNAL`. -/
def is_internal_or_command (t : Nat) : Bool :=
  decide (128 ≤ t) || decide (t = DP_MSG_INTERNAL)

/-- Area of one classic/pixel/pixel-square/mypaint dab as the batching
estimate counts it (`get_classic_dabs_area` etc., lines 221-260):
`DP_max_int(1, diameter * diameter)` with the per-family diameter. -/
def dabAreaOf : DabsFamily → Nat → Nat
  | .classic, size => max 1 ((size / 256 * 2) * (size / 256 * 2))
  | .pixel, size => max 1 ((size * 2) * (size * 2))
  | .pixelSquare, size => max 1 ((size * 2) * (size * 2))
  | .mypaint, size => max 1 ((size / 256) * (size / 256))

/-- The shared accumulation loop of `get_classic_dabs_area`,
`get_pixel_dabs_area` and `get_mypaint_dabs_area`: add dab areas to the
running total, but stop early as soon as the total has reached
`MAX_MULTIDAB_AREA` (`for (...; i < count && dabs_area < MAX_MULTIDAB_AREA; ...)`). -/
def get_family_dabs_area (fam : DabsFamily) : List Nat → Nat → Nat
  | [], acc => acc
  | size :: rest, acc =>
      if acc < MAX_MULTIDAB_AREA then
        get_family_dabs_area fam rest (acc + dabAreaOf fam size)
      else acc

/-- `get_dabs_area` (line 262): dispatch on the message type; any non-dabs
type yields `MAX_MULTIDAB_AREA + 1` (discarding the accumulator, as the
source does). -/
def get_dabs_area (m : Msg) (acc : Nat) : Nat :=
  match m.body with
  | .drawDabs fam sizes => get_family_dabs_area fam sizes acc
  | _ => MAX_MULTIDAB_AREA + 1

/-- Result of `shift_more_draw_dabs_messages`' loop. -/
structure ShiftResult where
  extra : List Msg
  queueRest : List Msg
  count : Nat
  total : Nat
deriving DecidableEq

/-- The loop of `shift_more_draw_dabs_messages` (lines 286-297): while fewer
than `MAX_MULTIDAB_MESSAGES` messages are batched and the queue is nonempty,
peek the next message, fold its dab area into the running total, and shift it
into the batch iff the total stays ≤ `MAX_MULTIDAB_AREA`; otherwise stop. -/
def shift_more : List Msg → Nat → Nat → ShiftResult
  | [], count, total => ⟨[], [], count, total⟩
  | m :: rest, count, total =>
      if count < MAX_MULTIDAB_MESSAGES then
        if get_dabs_area m total ≤ MAX_MULTIDAB_AREA then
          let r := shift_more rest (count + 1) (get_dabs_area m total)
          ⟨m :: r.extra, r.queueRest, r.count, r.total⟩
        else ⟨[], m :: rest, count, total⟩
      else ⟨[], m :: rest, count, total⟩

/-- A batch shifted out of one queue, with the queue's remaining messages and
the final running area estimate. -/
structure BatchResult where
  batch : List Msg
  queueRest : List Msg
  total : Nat
deriving DecidableEq

/-- `maybe_shift_more_messages` (line 308): compute the first message's dab
area; if it is at most `MAX_MULTIDAB_AREA_THRESHOLD`, continue with
`shift_more_draw_dabs_messages` (count starts at 1); otherwise the batch is
just the first message. -/
def maybe_shift_more (first : Msg) (queue : List Msg) : BatchResult :=
  if get_dabs_area first 0 ≤ MAX_MULTIDAB_AREA_THRESHOLD then
    let r := shift_more queue 1 (get_dabs_area first 0)
    ⟨first :: r.extra, r.queueRest, r.total⟩
  else ⟨[first], queue, get_dabs_area first 0⟩

/-- What one `handle_message` iteration consumed: the batch, which queue it
came from, and both queues afterwards. A batch of length 1 is dispatched via
`handle_single_message`, a longer batch via `handle_multidab` (lines 363-368). -/
structure HandleMessageResult where
  batch : List Msg
  fromLocal : Bool
  localRest : List Msg
  remoteRest : List Msg
deriving DecidableEq

/-- `handle_message` (line 351) restricted to its queue consumption:
`shift_first_message` takes the local queue's head if any (local priority,
line 209), else the remote queue's head, then `maybe_shift_more_messages`
continues shifting from the same queue. `none` when both queues are empty
(the paint thread only calls this when the semaphore indicates a message). -/
def handle_message : List Msg → List Msg → Option HandleMessageResult
  | m :: lrest, r =>
      let b := maybe_shift_more m lrest
      some ⟨b.batch, true, b.queueRest, r⟩
  | [], m :: rrest =>
      let b := maybe_shift_more m rrest
      some ⟨b.batch, false, [], b.queueRest⟩
  | [], [] => none

/-- The running estimate the source maintains for a batch, recomputed from the
batch: fold `get_dabs_area` over its messages starting from 0. -/
def run_estimate (batch : List Msg) : Nat :=
  batch.foldl (fun acc m => get_dabs_area m acc) 0

/-- The claim's cumulative dab-area estimate of one message: the sum over all
of its dabs of `max 1 (diameter²)`, with no early exit. -/
def true_msg_area (m : Msg) : Nat :=
  match m.body with
  | .drawDabs fam sizes => (sizes.map (dabAreaOf fam)).sum
  | _ => 0

/-- The claim's cumulative dab-area estimate of a batch: sum over all dabs of
all batched messages. -/
def true_batch_area (batch : List Msg) : Nat :=
  (batch.map true_msg_area).sum

/-- The largest single-dab area occurring in a batch (the most generous
reading of "the area of one overshoot dab"). -/
def batch_max_dab_area (batch : List Msg) : Nat :=
  (batch.map fun m =>
    match m.body with
    | .drawDabs fam sizes => (sizes.map (dabAreaOf fam)).foldl max 0
    | _ => 0).foldl max 0

/-- A draw-dabs-pixel message with 8 dabs of radius 128: dab area 256² each,
message area 524288 = `MAX_MULTIDAB_AREA_THRESHOLD` exactly. -/
def dabsMsgA : Msg := ⟨1, 1, .drawDabs .pixel (List.replicate 8 128)⟩

/-- A second message of 8 radius-128 pixel dabs; added to `dabsMsgA`'s area
the running total saturates at exactly `MAX_MULTIDAB_AREA`. -/
def dabsMsgB : Msg := ⟨2, 1, .drawDabs .pixel (List.replicate 8 128)⟩

/-- Two maximum-size pixel dabs (radius 255, area 510² = 260100 each). Once
the running total sits at exactly `MAX_MULTIDAB_AREA`, `get_dabs_area` counts
none of these dabs and the message is accepted for free. -/
def dabsMsgC : Msg := ⟨3, 1, .drawDabs .pixel [255, 255]⟩

/-- A small two-dab pixel message used for witnesses. -/
def dabsMsgD : Msg := ⟨4, 1, .drawDabs .pixel [2, 2]⟩

/-- Another small pixel message used for witnesses. -/
def dabsMsgE : Msg := ⟨5, 1, .drawDabs .pixel [3]⟩

/-- A command message used for the local-priority witness. -/
def cmdMsgF : Msg := ⟨6, 1, .otherCommand 7⟩

/-- A command message used for the local-priority witness. -/
def cmdMsgG : Msg := ⟨7, 2, .otherCommand 7⟩

/-! ## Intake and ACL filtering: `DP_paint_engine_handle_inc` -/

/-- `DP_PaintEngineLaserBuffer` (line 65): latest persistence and color per
context. The source splits the color into b,g,r,a bytes and reassembles the
identical 32-bit value at emission, so the color is kept whole here. -/
structure LaserBuffer where
  persistence : Nat
  color : Nat
deriving DecidableEq

/-- `DP_PaintEngineLaserChanges` (line 70): `count` is a `uint8_t`, `users`
and `active` are arrays indexed by context id (0..255), `buffers` the
per-context latest laser values. -/
structure LaserChanges where
  count : Nat
  users : Nat → Nat
  active : Nat → Bool
  buffers : Nat → LaserBuffer

/-- `DP_PaintEngineCursorChanges` (line 81); `positions` holds the latest
(x, y) per context. -/
structure CursorChanges where
  count : Nat
  users : Nat → Nat
  active : Nat → Bool
  positions : Nat → Int × Int

/-- `DP_PaintEngineMetaBuffer` (line 88). -/
structure MetaBuffer where
  aclChangeFlags : Nat
  haveDefaultLayer : Bool
  defaultLayer : Nat
  laser : LaserChanges
  cursor : CursorChanges

/-- `handle_laser_trail` (line 650). On the first laser message of a call
(`count == 0`) the `active` array is cleared and the context id recorded at
`users[0]` — without setting `active[context_id]`, exactly as the source
does. Later messages append the context to `users` only when it is not yet
active. The buffer always takes the latest message's values. `count` is a
`uint8_t`, hence the `% 256`. -/
def handle_laser_trail (contextId persistence color : Nat) (l : LaserChanges) :
    LaserChanges :=
  let l :=
    if l.count = 0 then
      { l with
        active := fun _ => false
        users := Function.update l.users 0 contextId
        count := 1 }
    else if l.active contextId = false then
      { l with
        active := Function.update l.active contextId true
        users := Function.update l.users l.count contextId
        count := (l.count + 1) % 256 }
    else l
  { l with buffers := Function.update l.buffers contextId ⟨persistence, color⟩ }

/-- `handle_move_pointer` (line 674): same folding pattern as
`handle_laser_trail`, storing the latest (x, y). -/
def handle_move_pointer (contextId : Nat) (x y : Int) (c : CursorChanges) :
    CursorChanges :=
  let c :=
    if c.count = 0 then
      { c with
        active := fun _ => false
        users := Function.update c.users 0 contextId
        count := 1 }
    else if c.active contextId = false then
      { c with
        active := Function.update c.active contextId true
        users := Function.update c.users c.count contextId
        count := (c.count + 1) % 256 }
    else c
  { c with positions := Function.update c.positions contextId (x, y) }

/-- The meta-message dispatch inside `should_push_message_remote` (lines
708-722) for an unfiltered message: internal and command messages are pushed;
laser trail, move pointer and default layer fold into the meta buffer; other
meta messages are dropped. The match realizes `is_internal_or_command(type)`
plus the specific type comparisons of the source under the `msgType`
encoding. -/
def remote_meta_update (mb : MetaBuffer) (m : Msg) : Bool × MetaBuffer :=
  match m.body with
  | .internal _ => (true, mb)
  | .drawDabs _ _ => (true, mb)
  | .otherCommand _ => (true, mb)
  | .laserTrail persistence color =>
      (false,
       { mb with laser := handle_laser_trail (m.contextId % 256) persistence color mb.laser })
  | .movePointer x y =>
      (false, { mb with cursor := handle_move_pointer (m.contextId % 256) x y mb.cursor })
  | .defaultLayer layerId =>
      (false, { mb with haveDefaultLayer := true, defaultLayer := layerId })
  | .otherMeta _ => (false, mb)

/-- The ACL state machine's step: `DP_acl_state_handle(acls, msg)` returning
a `uint8_t` result. The filter itself is an external collaborator; the paint
engine only observes this function. -/
abbrev AclStep := AclSt → Msg → AclSt × Nat

/-- Mutable state threaded through one `handle_inc` call: the ACL state, the
meta buffer, and (for verification) the trace of messages handed to
`DP_acl_state_handle`, in call order. -/
structure IncSt where
  acl : AclSt
  meta : MetaBuffer
  aclTrace : List Msg

/-- `should_push_message_remote` (line 704): run the ACL state machine, OR
the (u8) result into the accumulated change flags, drop the message when the
FILTERED bit is set, otherwise classify it via `remote_meta_update`. -/
def should_push_remote (step : AclStep) (s : IncSt) (m : Msg) : Bool × IncSt :=
  let p := step s.acl m
  let res := p.2 % 256
  let mb1 : MetaBuffer := { s.meta with aclChangeFlags := s.meta.aclChangeFlags ||| res }
  let bm : Bool × MetaBuffer :=
    if res &&& DP_ACL_STATE_FILTERED_BIT ≠ 0 then (false, mb1)
    else remote_meta_update mb1 m
  (bm.1, ⟨p.1, bm.2, s.aclTrace ++ [m]⟩)

/-- `should_push_message_local` (line 726): push iff internal or command; no
state is touched. -/
def should_push_local (s : IncSt) (m : Msg) : Bool × IncSt :=
  (is_internal_or_command (msgType m.body), s)

/-- The loop of `push_messages` over the messages after the first one (lines
742-748): re-check each with `should_push`, pushing those that pass. Returns
the number pushed among these, the final state, and the pushed messages in
order. -/
def push_rest (should : IncSt → Msg → Bool × IncSt) (s : IncSt) :
    List Msg → Nat × IncSt × List Msg
  | [] => (0, s, [])
  | m :: rest =>
      let b := should s m
      let r := push_rest should b.2 rest
      if b.1 then (r.1 + 1, r.2.1, m :: r.2.2) else r

/-- The scan loop of `DP_paint_engine_handle_inc` (lines 775-781): check each
message with `should_push` until the first pushable one; that message is
pushed unconditionally by `push_messages` and the remaining messages are
checked by its loop. Returns (pushed count, final state, pushed messages in
order). -/
def scan_push (should : IncSt → Msg → Bool × IncSt) (s : IncSt) :
    List Msg → Nat × IncSt × List Msg
  | [] => (0, s, [])
  | m :: rest =>
      let b := should s m
      if b.1 then
        let r := push_rest should b.2 rest
        (r.1 + 1, r.2.1, m :: r.2.2)
      else scan_push should b.2 rest

/-- The callbacks `DP_paint_engine_handle_inc` can fire after releasing the
queue lock. -/
inductive IncEvent where
  | aclsChanged (mask : Nat)
  | laserTrail (contextId persistence color : Nat)
  | movePointer (contextId : Nat) (x y : Int)
  | defaultLayerSet (layerId : Nat)
deriving DecidableEq

/-- The callback emission at the end of `DP_paint_engine_handle_inc` (lines
784-810), in source order: ACL-changed when the masked change flags are
nonzero, then one laser-trail callback per entry of `laser.users[0..count)`,
then one move-pointer callback per entry of `cursor.users[0..count)`, then
default-layer-set when one was recorded. -/
def emit_meta_events (mb : MetaBuffer) : List IncEvent :=
  (if mb.aclChangeFlags &&& DP_ACL_STATE_CHANGE_MASK ≠ 0 then
      [IncEvent.aclsChanged (mb.aclChangeFlags &&& DP_ACL_STATE_CHANGE_MASK)]
    else [])
  ++ (List.range mb.laser.count).map (fun i =>
      IncEvent.laserTrail (mb.laser.users i)
        (mb.laser.buffers (mb.laser.users i)).persistence
        (mb.laser.buffers (mb.laser.users i)).color)
  ++ (List.range mb.cursor.count).map (fun i =>
      IncEvent.movePointer (mb.cursor.users i)
        (mb.cursor.positions (mb.cursor.users i)).1
        (mb.cursor.positions (mb.cursor.users i)).2)
  ++ (if mb.haveDefaultLayer then [IncEvent.defaultLayerSet mb.defaultLayer] else [])

/-- Everything one `DP_paint_engine_handle_inc` call produces. -/
structure IncResult where
  pushed : Nat
  acl : AclSt
  meta : MetaBuffer
  aclTrace : List Msg
  queue : List Msg
  semPosts : Nat
  events : List IncEvent

/-- `DP_paint_engine_handle_inc` (line 754): reset the per-call meta-buffer
fields (`acl_change_flags`, both counts, `have_default_layer` — the arrays
keep their previous contents), scan/push the batch, append the pushed
messages to the target queue with one semaphore post per pushed message
(coalesced `DP_SEMAPHORE_MUST_POST_N`), then emit the callbacks. -/
def handle_inc (step : AclStep) (isLocal : Bool) (a0 : AclSt) (mb0 : MetaBuffer)
    (queue : List Msg) (msgs : List Msg) : IncResult :=
  let should := if isLocal then should_push_local else should_push_remote step
  let mb : MetaBuffer :=
    { mb0 with
      aclChangeFlags := 0
      laser := { mb0.laser with count := 0 }
      cursor := { mb0.cursor with count := 0 }
      haveDefaultLayer := false }
  let r := scan_push should ⟨a0, mb, []⟩ msgs
  { pushed := r.1
    acl := r.2.1.acl
    meta := r.2.1.meta
    aclTrace := r.2.1.aclTrace
    queue := queue ++ r.2.2
    semPosts := r.1
    events := emit_meta_events r.2.1.meta }

/-- Whether a message list contains a default-layer message. -/
def has_dl : List Msg → Bool
  | [] => false
  | m :: rest =>
      (match m.body with
       | .defaultLayer _ => true
       | _ => false) || has_dl rest

/-- The layer id of the last default-layer message of a list, defaulting to
`d` when there is none (last wins, as `handle_default_layer` overwrites). -/
def dl_last : List Msg → Nat → Nat
  | [], d => d
  | m :: rest, d =>
      dl_last rest
        (match m.body with
         | .defaultLayer i => i
         | _ => d)

/-- Callback phases: ACL before laser before cursor before default layer. -/
def incPhase : IncEvent → Nat
  | .aclsChanged _ => 0
  | .laserTrail _ _ _ => 1
  | .movePointer _ _ _ => 2
  | .defaultLayerSet _ => 3

/-- An empty laser-changes record (fresh engine). -/
def initLaser : LaserChanges := ⟨0, fun _ => 0, fun _ => false, fun _ => ⟨0, 0⟩⟩

/-- An empty cursor-changes record (fresh engine). -/
def initCursor : CursorChanges := ⟨0, fun _ => 0, fun _ => false, fun _ => (0, 0)⟩

/-- A fresh meta buffer. -/
def initMeta : MetaBuffer := ⟨0, false, 0, initLaser, initCursor⟩

/-- An ACL step that filters nothing and reports no changes. -/
def aclPassAll : AclStep := fun a _ => (a, 0)

/-- First laser-trail message of context 5 (persistence 30, color 111). -/
def laserMsg1 : Msg := ⟨10, 5, .laserTrail 30 111⟩

/-- Second laser-trail message of context 5 (persistence 40, color 222). -/
def laserMsg2 : Msg := ⟨11, 5, .laserTrail 40 222⟩

/-- First move-pointer message of context 6 (position (10, 20)). -/
def mpMsg1 : Msg := ⟨14, 6, .movePointer 10 20⟩

/-- Second move-pointer message of context 6 (position (30, 40)). -/
def mpMsg2 : Msg := ⟨15, 6, .movePointer 30 40⟩

/-- A default-layer message selecting layer 8. -/
def dlMsg1 : Msg := ⟨12, 1, .defaultLayer 8⟩

/-- A later default-layer message selecting layer 9. -/
def dlMsg2 : Msg := ⟨13, 1, .defaultLayer 9⟩

/-! ## Teardown: `DP_paint_engine_free_join` -/

/-- Resource effects of teardown: message refcount decrements and preview
disposals, in the order they happen. -/
inductive FreeEff where
  | decref (uid : Nat)
  | dispose (previewId : Nat)
deriving DecidableEq

/-- `free_preview` (line 150): dispose and free the preview unless it is NULL
or the address of the `null_preview` sentinel. -/
def free_preview_eff : Option PreviewPayload → List FreeEff
  | some (.real i) => [.dispose i]
  | some .nullPreview => []
  | none => []

/-- Modelled from the spec: `DP_message_queue_dispose` lives in libmsg, which
is not under src/; per §3 (Lifetimes) teardown "drains both queues
(decrementing refcounts)", so disposing a queue decrefs each remaining
message. It knows nothing about preview payloads. -/
def message_queue_dispose_eff (q : List Msg) : List FreeEff :=
  q.map fun m => .decref m.uid

/-- The preview-payload check inside the local-queue drain loop (lines
481-485): an internal preview-install message frees its payload, any other
message frees nothing. -/
def local_preview_eff (m : Msg) : List FreeEff :=
  match m.body with
  | .internal (.preview p) => free_preview_eff (some p)
  | _ => []

/-- The local-queue drain loop of `DP_paint_engine_free_join` (lines 479-488):
shift each message; if it is an internal preview-install message, free its
preview payload; then decref the message. -/
def drain_local_eff : List Msg → List FreeEff
  | [] => []
  | m :: rest => local_preview_eff m ++ (FreeEff.decref m.uid :: drain_local_eff rest)

/-- The resource effects of `DP_paint_engine_free_join` (line 467) on the
queues and preview slots, in source order: free the pending `next_preview`
(line 477), dispose the remote queue (line 478), drain the local queue
disposing preview payloads (lines 479-488), free the installed preview
(line 490). Thread/semaphore shutdown carries no refcount effects and is
omitted. -/
def free_join_eff (nextPreview installedPreview : Option PreviewPayload)
    (remoteQueue localQueue : List Msg) : List FreeEff :=
  free_preview_eff nextPreview
    ++ message_queue_dispose_eff remoteQueue
    ++ drain_local_eff localQueue
    ++ free_preview_eff installedPreview

/-- Number of occurrences of one effect in an effect list. -/
def countEff (e : FreeEff) : List FreeEff → Nat
  | [] => 0
  | x :: xs => (if x = e then 1 else 0) + countEff e xs

/-- Number of queued messages with a given uid. -/
def countUid (u : Nat) : List Msg → Nat
  | [] => 0
  | m :: xs => (if m.uid = u then 1 else 0) + countUid u xs

/-- Number of queued internal preview-install messages carrying a given real
preview payload. -/
def countPreviewMsgs (p : Nat) : List Msg → Nat
  | [] => 0
  | m :: xs =>
      (if m.body = .internal (.preview (.real p)) then 1 else 0) + countPreviewMsgs p xs

/-- Disposals a preview slot (pending or installed) owes for payload `p`. -/
def slotDisposes (o : Option PreviewPayload) (p : Nat) : Nat :=
  if o = some (.real p) then 1 else 0

/-- An internal preview-install message with payload 7, for the teardown
counterexample: placed on the remote queue. -/
def previewMsgRemote : Msg := ⟨20, 0, .internal (.preview (.real 7))⟩

/-! ## `DP_paint_engine_preview_dabs_inc` -/

/-- Observable effects of the preview-producer operations: message refcount
increments for held messages, a preview allocation, a push onto the local
queue and a semaphore post. -/
inductive PvEff where
  | increfMsg (uid : Nat)
  | allocPreview (id : Nat)
  | pushLocal (uid : Nat)
  | semPost
deriving DecidableEq

/-- The producer-visible engine state touched by `preview_dabs_inc`:
the view canvas offsets read by `set_preview`, the local queue, the number of
semaphore posts, and allocation counters giving fresh identities to the
internal message and the preview. -/
structure ProducerState where
  viewOffsetX : Int
  viewOffsetY : Int
  localQueue : List Msg
  semPosts : Nat
  nextUid : Nat
  nextPreviewId : Nat
deriving DecidableEq

/-- `sync_preview` (line 1233): wrap the preview in an internal
preview-install message (`DP_msg_internal_preview_new(0, preview)`), push it
onto the local queue under the mutex and post the semaphore once. -/
def sync_preview (pe : ProducerState) (payload : PreviewPayload) :
    ProducerState × List PvEff :=
  let m : Msg := ⟨pe.nextUid, 0, .internal (.preview payload)⟩
  ({ pe with
      localQueue := pe.localQueue ++ [m]
      semPosts := pe.semPosts + 1
      nextUid := pe.nextUid + 1 },
   [.pushLocal m.uid, .semPost])

/-- `DP_paint_engine_preview_dabs_inc` (line 1460): when `count > 0`,
allocate a dabs preview holding an incref of each of the first `count`
messages, then `set_preview` records the current view offsets into it and
hands it to `sync_preview`. When `count ≤ 0` nothing happens at all. The
preview's contents (layer id, held messages, offsets) live behind its
allocation id; the claims concern only the engine-state effects. -/
def preview_dabs_inc (pe : ProducerState) (layerId : Int) (count : Int)
    (msgs : List Msg) : ProducerState × List PvEff :=
  if 0 < count then
    let held := msgs.take count.toNat
    let pid := pe.nextPreviewId
    let r := sync_preview { pe with nextPreviewId := pe.nextPreviewId + 1 } (.real pid)
    (r.1, (held.map fun m => PvEff.increfMsg m.uid) ++ [PvEff.allocPreview pid] ++ r.2)
  else (pe, [])

/-- A concrete producer state for the `preview_dabs_inc` witness. -/
def producerState0 : ProducerState := ⟨0, 0, [], 0, 100, 0⟩

/-! ## Local view layer props: `set_local_view_layer_props_recursive` -/

/-- `DP_LayerViewMode`. -/
inductive ViewMode where
  | normal
  | solo
  | frame
  | onionSkin
deriving DecidableEq

mutual
/-- A `DP_LayerProps` node: id and the flags the paint engine touches.
A leaf has no children layer-props list (`DP_layer_props_children_noinc`
returns null); a group carries one. -/
inductive LP where
  | leaf (id : Nat) (censored : Bool) (hiddenByViewMode : Bool) (hidden : Bool)
  | group (id : Nat) (censored : Bool) (hiddenByViewMode : Bool) (hidden : Bool)
      (children : LPList)
/-- A `DP_LayerPropsList`. -/
inductive LPList where
  | nil
  | cons (head : LP) (tail : LPList)
end

/-- The `switch (layer_view_mode)` of `set_local_view_layer_props_recursive`
(lines 938-953): in Solo mode a layer whose id matches `active_layer_id` is
kept and its children switch to Normal mode; any other layer is hidden iff it
is a leaf (`hide_layer = !child_lpl`) and its children stay in Solo mode. In
every other mode nothing is hidden and the mode is passed down unchanged.
Returns (hide_layer, child_layer_view_mode). -/
def solo_decision (isLeaf : Bool) (id activeLayerId : Nat) :
    ViewMode → Bool × ViewMode
  | .solo =>
      if id = activeLayerId then (false, .normal)
      else (isLeaf, .solo)
  | m => (false, m)

mutual
/-- One node of `set_local_view_layer_props_recursive` (line 924): compute
`hide_layer` and the child mode via the view-mode switch, clear the censored
flag when `reveal_censored` is set and the props had it, set the
hidden-by-view-mode flag when hiding, and recurse into children with the
child mode. -/
def set_lv_node (activeLayerId : Nat) (mode : ViewMode) (revealCensored : Bool) :
    LP → LP
  | .leaf id censored hbvm hidden =>
      let d := solo_decision true id activeLayerId mode
      .leaf id (if revealCensored && censored then false else censored)
        (hbvm || d.1) hidden
  | .group id censored hbvm hidden children =>
      let d := solo_decision false id activeLayerId mode
      .group id (if revealCensored && censored then false else censored)
        (hbvm || d.1) hidden
        (set_lv_list activeLayerId d.2 revealCensored children)
/-- `set_local_view_layer_props_recursive`'s loop over a layer props list. -/
def set_lv_list (activeLayerId : Nat) (mode : ViewMode) (revealCensored : Bool) :
    LPList → LPList
  | .nil => .nil
  | .cons x xs =>
      .cons (set_lv_node activeLayerId mode revealCensored x)
        (set_lv_list activeLayerId mode revealCensored xs)
end

mutual
/-- Ids of the nodes whose hidden-by-view-mode flag is set, in traversal
order. -/
def hbvm_ids_node : LP → List Nat
  | .leaf id _ hbvm _ => if hbvm then [id] else []
  | .group id _ hbvm _ children =>
      (if hbvm then [id] else []) ++ hbvm_ids_list children
/-- `hbvm_ids_node` over a list. -/
def hbvm_ids_list : LPList → List Nat
  | .nil => []
  | .cons x xs => hbvm_ids_node x ++ hbvm_ids_list xs
end

mutual
/-- No node of the tree has its hidden-by-view-mode flag set (the state of an
authoritative, history-produced layer props tree). -/
def hbvm_clear_node : LP → Bool
  | .leaf _ _ hbvm _ => !hbvm
  | .group _ _ hbvm _ children => !hbvm && hbvm_clear_list children
/-- `hbvm_clear_node` over a list. -/
def hbvm_clear_list : LPList → Bool
  | .nil => true
  | .cons x xs => hbvm_clear_node x && hbvm_clear_list xs
end

mutual
/-- The set of layers the claim says Solo mode hides: every leaf whose id
differs from the active layer id, in traversal order. -/
def claimed_solo_hidden_node (activeLayerId : Nat) : LP → List Nat
  | .leaf id _ _ _ => if id = activeLayerId then [] else [id]
  | .group _ _ _ _ children => claimed_solo_hidden_list activeLayerId children
/-- `claimed_solo_hidden_node` over a list. -/
def claimed_solo_hidden_list (activeLayerId : Nat) : LPList → List Nat
  | .nil => []
  | .cons x xs =>
      claimed_solo_hidden_node activeLayerId x ++ claimed_solo_hidden_list activeLayerId xs
end

mutual
/-- The set of layers the code actually hides in Solo mode: every leaf whose
id differs from the active layer id and that has no node with the active id
on its path from the root (once a node matches the active id, its whole
subtree switches to Normal mode). -/
def solo_hidden_spec_node (activeLayerId : Nat) : LP → List Nat
  | .leaf id _ _ _ => if id = activeLayerId then [] else [id]
  | .group id _ _ _ children =>
      if id = activeLayerId then []
      else solo_hidden_spec_list activeLayerId children
/-- `solo_hidden_spec_node` over a list. -/
def solo_hidden_spec_list (activeLayerId : Nat) : LPList → List Nat
  | .nil => []
  | .cons x xs =>
      solo_hidden_spec_node activeLayerId x ++ solo_hidden_spec_list activeLayerId xs
end

/-- The counterexample tree: a group with id 1 containing a single leaf with
id 2 — the active layer is the group. -/
def soloTree : LPList :=
  .cons (.group 1 false false false (.cons (.leaf 2 false false false) .nil)) .nil

/-- A two-layer forest for the amended-claim witness: a leaf 3 (active) and a
group 4 holding a leaf 5. -/
def soloTreeW : LPList :=
  .cons (.leaf 3 false false false)
    (.cons (.group 4 false false false (.cons (.leaf 5 false false false) .nil)) .nil)

/-! ## The view composer: `DP_paint_engine_tick`

Canvas states are external immutable snapshots; the model keeps exactly the
observables the tick path reads (`ident` stands for the allocation, so that
two equal `CS` values are the same pointer), and the canvas-state operations
the composition stages call out to are oracle functions in `Env`. -/

/-- A `DP_UserCursor` from the history's user-cursor buffer. -/
structure Cursor where
  contextId : Nat
  layerId : Nat
  x : Int
  y : Int
deriving DecidableEq

/-- A `DP_CanvasState *` as the tick path observes it. -/
structure CS where
  ident : Nat
  width : Int
  height : Int
  offsetX : Int
  offsetY : Int
  lpl : Nat
  annotations : Nat
  metadata : Nat
deriving DecidableEq

/-- An installed `DP_PaintEnginePreview`: its identity and the initial offset
captured by `set_preview`. -/
structure Preview where
  ident : Nat
  initialOffsetX : Int
  initialOffsetY : Int
deriving DecidableEq

/-- `pe->local_view` (line 104). `prevLpl` and `lpl` hold layer-props-list
pointers (`none` = null). -/
structure LocalView where
  activeLayerId : Nat
  activeFrameIndex : Int
  layerViewMode : ViewMode
  revealCensored : Bool
  inspectContextId : Nat
  hiddenLayers : List Nat
  prevLpl : Option Nat
  lpl : Option Nat
deriving DecidableEq

/-- The engine state the tick thread and the local-view setters touch.
`nextPreview` is the atomic slot: `none` = NULL, `some none` = the
`null_preview` sentinel, `some (some p)` = a pending preview `p`. -/
structure Engine where
  catchup : Int
  historyCs : CS
  nextPreview : Option (Option Preview)
  preview : Option Preview
  localView : LocalView
  viewCs : CS
deriving DecidableEq

/-- External collaborators of the tick path. `compareAndGet` returns the new
history state (or `none`) and fills the user-cursor buffer;
`renderPreview` is the installed preview's `render` function;
`inspectRender` is the canvas-state work of `apply_inspect`;
`applyViewModeProps` the transient layer-props work of
`set_local_layer_props`; `applyHiddenLayers` is `set_hidden_layer_props`'
canvas-state work, returning the purged hidden-layer list and the new state;
`spliceLpl` is `DP_transient_canvas_state_layer_props_set_inc` of the
memoised list; `diffTiles`/`diffLplChanged` are the canvas-diff reads of
`emit_changes`. -/
structure Env where
  compareAndGet : CS → Option CS × List Cursor
  renderPreview : Preview → CS → Int → Int → CS
  inspectRender : Nat → CS → CS
  applyViewModeProps : Nat → ViewMode → Bool → CS → CS
  applyHiddenLayers : List Nat → CS → List Nat × CS
  spliceLpl : Option Nat → CS → CS
  diffTiles : CS → CS → List (Nat × Nat)
  diffLplChanged : CS → CS → Bool

/-- `apply_preview` (line 816): if a preview is installed, call its render
function with the delta between its initial offset and the state's current
offset; else the state is passed through (`DP_canvas_state_incref` returns
the same pointer). -/
def apply_preview (env : Env) (pe : Engine) (cs : CS) : CS :=
  match pe.preview with
  | some p =>
      env.renderPreview p cs (p.initialOffsetX - cs.offsetX)
        (p.initialOffsetY - cs.offsetY)
  | none => cs

/-- `apply_inspect` (line 904): identity when `inspect_context_id` is 0. -/
def apply_inspect (env : Env) (pe : Engine) (cs : CS) : CS :=
  if pe.localView.inspectContextId = 0 then cs
  else env.inspectRender pe.localView.inspectContextId cs

/-- `set_local_layer_props` (line 1003): run the view-mode/censor recursion
when the mode is not Normal or reveal-censored is set, then mark the
hidden-layer list (purging stale ids), and memoise the resulting root
layer-props list in `local_view.lpl`. -/
def set_local_layer_props (env : Env) (pe : Engine) (cs : CS) : Engine × CS :=
  let cs1 :=
    if pe.localView.layerViewMode ≠ ViewMode.normal ∨ pe.localView.revealCensored then
      env.applyViewModeProps pe.localView.activeLayerId pe.localView.layerViewMode
        pe.localView.revealCensored cs
    else cs
  let hp :=
    if pe.localView.hiddenLayers ≠ [] then env.applyHiddenLayers pe.localView.hiddenLayers cs1
    else (pe.localView.hiddenLayers, cs1)
  ({ pe with
      localView :=
        { pe.localView with hiddenLayers := hp.1, lpl := some hp.2.lpl } },
   hp.2)

/-- `apply_local_layer_props` (line 1033): if the state's layer-props list is
pointer-equal to the memoised `prev_lpl` then either nothing needs changing
(Normal mode, no reveal-censored, empty hidden list) and the state passes
through, or the memoised overlay list is spliced in; otherwise re-memoise
`prev_lpl` and recompute via `set_local_layer_props`. -/
def apply_local_layer_props (env : Env) (pe : Engine) (cs : CS) : Engine × CS :=
  if pe.localView.prevLpl = some cs.lpl then
    if pe.localView.layerViewMode = ViewMode.normal ∧
        pe.localView.revealCensored = false ∧ pe.localView.hiddenLayers = [] then
      (pe, cs)
    else (pe, env.spliceLpl pe.localView.lpl cs)
  else
    set_local_layer_props env
      { pe with localView := { pe.localView with prevLpl := some cs.lpl } } cs

/-- The callbacks `DP_paint_engine_tick` can fire. -/
inductive TickEvent where
  | catchup (progress : Int)
  | resized (dx dy prevWidth prevHeight : Int)
  | tileChanged (x y : Nat)
  | layerPropsChanged
  | annotationsChanged
  | documentMetadataChanged
  | cursorMoved (contextId layerId : Nat) (x y : Int)
deriving DecidableEq

/-- `emit_changes` (line 1067): resized when the dimensions differ, one
tile-changed per dirty diff position, layer-props-changed per the diff flag,
annotations/metadata-changed on pointer inequality, then one cursor-moved per
buffered user cursor. -/
def emit_changes (env : Env) (prev cs : CS) (ucb : List Cursor) : List TickEvent :=
  (if prev.width ≠ cs.width ∨ prev.height ≠ cs.height then
      [TickEvent.resized (prev.offsetX - cs.offsetX) (prev.offsetY - cs.offsetY)
        prev.width prev.height]
    else [])
  ++ (env.diffTiles cs prev).map (fun p => TickEvent.tileChanged p.1 p.2)
  ++ (if env.diffLplChanged cs prev then [TickEvent.layerPropsChanged] else [])
  ++ (if cs.annotations ≠ prev.annotations then [TickEvent.annotationsChanged] else [])
  ++ (if cs.metadata ≠ prev.metadata then [TickEvent.documentMetadataChanged] else [])
  ++ ucb.map fun c => TickEvent.cursorMoved c.contextId c.layerId c.x c.y

/-- `local_view_changed` as `DP_paint_engine_tick` computes it (line 1148):
the local overlay was invalidated iff `prev_lpl` is null. -/
def local_view_changed (pe : Engine) : Bool :=
  pe.localView.prevLpl.isNone

/-- `DP_paint_engine_tick` (line 1112): exchange the catchup slot with -1 and
fire the catchup callback if a value was pending; compare-and-get a new
history state; exchange the pending-preview slot with NULL and install what
it held (the sentinel clears the preview); then, iff any of
(new history state, new pending preview, invalidated local view), run the
composition pipeline over the history state, replace `view_cs` and emit the
changes. (The disposal of a preview displaced from the slot is a resource
effect outside the claims settled here.) -/
def tick (env : Env) (pe0 : Engine) : Engine × List TickEvent :=
  let progress := pe0.catchup
  let pe1 : Engine := { pe0 with catchup := -1 }
  let catchupEvs : List TickEvent :=
    if progress = -1 then [] else [TickEvent.catchup progress]
  let resp := env.compareAndGet pe1.historyCs
  let pe2 : Engine :=
    match resp.1 with
    | some cs => { pe1 with historyCs := cs }
    | none => pe1
  let np := pe2.nextPreview
  let pe3 : Engine :=
    match np with
    | some v => { pe2 with nextPreview := none, preview := v }
    | none => pe2
  if resp.1.isSome || np.isSome || local_view_changed pe3 then
    let prevView := pe3.viewCs
    let cs1 := apply_preview env pe3 pe3.historyCs
    let cs2 := apply_inspect env pe3 cs1
    let r := apply_local_layer_props env pe3 cs2
    ({ r.1 with viewCs := r.2 },
     catchupEvs ++ emit_changes env prevView r.2 resp.2)
  else (pe3, catchupEvs)

/-- `invalidate_local_view` (line 526): drop the memoised previous layer
props list. -/
def invalidate_local_view (lv : LocalView) : LocalView :=
  { lv with prevLpl := none }

/-- `DP_paint_engine_active_layer_id_set` (line 532): when the id changes,
store it, and invalidate the local view only when the layer view mode is not
Normal. -/
def active_layer_id_set (pe : Engine) (layerId : Nat) : Engine :=
  if pe.localView.activeLayerId ≠ layerId then
    let lv := { pe.localView with activeLayerId := layerId }
    let lv :=
      if pe.localView.layerViewMode ≠ ViewMode.normal then invalidate_local_view lv
      else lv
    { pe with localView := lv }
  else pe

/-- A trivial environment: history never yields a new state, every external
canvas-state operation is the identity, the diff is empty. -/
def trivialEnv : Env where
  compareAndGet := fun _ => (none, [])
  renderPreview := fun _ cs _ _ => cs
  inspectRender := fun _ cs => cs
  applyViewModeProps := fun _ _ _ cs => cs
  applyHiddenLayers := fun h cs => (h, cs)
  spliceLpl := fun _ cs => cs
  diffTiles := fun _ _ => []
  diffLplChanged := fun _ _ => false

/-- A concrete canvas state. -/
def cs0 : CS := ⟨0, 256, 256, 0, 0, 50, 60, 70⟩

/-- A concrete local view in Normal mode with an intact memoisation. -/
def localView0 : LocalView := ⟨0, 0, .normal, false, 0, [], some 50, some 50⟩

/-- A concrete engine for the tick witness: catchup pending, nothing else. -/
def engine0 : Engine := ⟨42, cs0, none, none, localView0, cs0⟩

/-- A concrete engine for the active-layer witness, in Normal view mode. -/
def engine1 : Engine := ⟨-1, cs0, none, none, localView0, cs0⟩

/-! ## Theorems -/

/-- The batching loop only reorders a queue prefix into the batch: extras
followed by the remaining queue give back the original queue. -/
theorem shift_more_append : ∀ (q : List Msg) (count total : Nat),
    (shift_more q count total).extra ++ (shift_more q count total).queueRest = q
  | [], _, _ => rfl
  | m :: rest, count, total => by
      unfold shift_more
      split
      · split
        · dsimp only
          simpa using shift_more_append rest (count + 1) (get_dabs_area m total)
        · rfl
      · rfl

/-- The batching loop's final count is the initial count plus the number of
extra messages shifted. -/
theorem shift_more_count_eq : ∀ (q : List Msg) (count total : Nat),
    (shift_more q count total).count = count + (shift_more q count total).extra.length
  | [], _, _ => by simp [shift_more]
  | m :: rest, count, total => by
      unfold shift_more
      split
      · split
        · have ih := shift_more_count_eq rest (count + 1) (get_dabs_area m total)
          dsimp only
          simp only [List.length_cons]
          omega
        · simp
      · simp

/-- The batching loop never exceeds `MAX_MULTIDAB_MESSAGES`. -/
theorem shift_more_count_le : ∀ (q : List Msg) (count total : Nat),
    count ≤ MAX_MULTIDAB_MESSAGES →
    (shift_more q count total).count ≤ MAX_MULTIDAB_MESSAGES
  | [], _, _, h => h
  | m :: rest, count, total, h => by
      unfold shift_more
      split
      · split
        · dsimp only
          exact shift_more_count_le rest (count + 1) (get_dabs_area m total) (by omega)
        · exact h
      · exact h

/-- The batching loop's running total stays within `MAX_MULTIDAB_AREA`
whenever it starts there: a message is shifted only when the updated total
still fits. -/
theorem shift_more_total_le : ∀ (q : List Msg) (count total : Nat),
    total ≤ MAX_MULTIDAB_AREA →
    (shift_more q count total).total ≤ MAX_MULTIDAB_AREA
  | [], _, _, h => h
  | m :: rest, count, total, h => by
      unfold shift_more
      split
      · split
        · next harea =>
            dsimp only
            exact shift_more_total_le rest (count + 1) _ harea
        · exact h
      · exact h

/-- The batching loop's final total is exactly the fold of `get_dabs_area`
over the shifted extras, starting from the initial total. -/
theorem shift_more_total_foldl : ∀ (q : List Msg) (count total : Nat),
    (shift_more q count total).total =
      (shift_more q count total).extra.foldl (fun acc m => get_dabs_area m acc) total
  | [], _, _ => rfl
  | m :: rest, count, total => by
      unfold shift_more
      split
      · split
        · dsimp only
          simpa using shift_more_total_foldl rest (count + 1) (get_dabs_area m total)
        · rfl
      · rfl

/-- A batch starts with the triggering message and, together with what
remains in the queue, gives back the original queue contents. -/
theorem maybe_shift_more_append (first : Msg) (q : List Msg) :
    (maybe_shift_more first q).batch ++ (maybe_shift_more first q).queueRest =
      first :: q := by
  unfold maybe_shift_more
  split
  · dsimp only
    simpa using shift_more_append q 1 (get_dabs_area first 0)
  · rfl

/-- A batch is never empty. -/
theorem maybe_shift_more_batch_ne (first : Msg) (q : List Msg) :
    (maybe_shift_more first q).batch ≠ [] := by
  unfold maybe_shift_more
  split <;> simp

/-- Any multi-message batch respects the message-count cap and its running
early-exit area estimate respects the area cap. -/
theorem maybe_shift_more_bounds (first : Msg) (q : List Msg)
    (h2 : 2 ≤ (maybe_shift_more first q).batch.length) :
    (maybe_shift_more first q).batch.length ≤ MAX_MULTIDAB_MESSAGES ∧
      run_estimate (maybe_shift_more first q).batch ≤ MAX_MULTIDAB_AREA := by
  by_cases hthr : get_dabs_area first 0 ≤ MAX_MULTIDAB_AREA_THRESHOLD
  · simp only [maybe_shift_more, if_pos hthr]
    constructor
    · have hc := shift_more_count_eq q 1 (get_dabs_area first 0)
      have hle := shift_more_count_le q 1 (get_dabs_area first 0)
        (by norm_num [MAX_MULTIDAB_MESSAGES])
      simp only [List.length_cons]
      omega
    · have hf := shift_more_total_foldl q 1 (get_dabs_area first 0)
      have hin : get_dabs_area first 0 ≤ MAX_MULTIDAB_AREA := by
        have hh : MAX_MULTIDAB_AREA_THRESHOLD ≤ MAX_MULTIDAB_AREA := by
          norm_num [MAX_MULTIDAB_AREA_THRESHOLD, MAX_MULTIDAB_AREA]
        omega
      have htot := shift_more_total_le q 1 (get_dabs_area first 0) hin
      simp only [run_estimate, List.foldl_cons]
      omega
  · simp only [maybe_shift_more, if_neg hthr] at h2
    simp at h2

/-- C4: whenever the paint thread dispatches while the local queue is
non-empty, the whole consumed batch is a (non-empty) prefix of the local
queue and the remote queue is left untouched; the remote queue is consulted
only when the local queue is empty. -/
theorem c4_local_queue_priority (l r : List Msg) (h : l ≠ []) :
    ∃ batch ltail, handle_message l r = some ⟨batch, true, ltail, r⟩ ∧
      batch ≠ [] ∧ batch ++ ltail = l := by
  match l, h with
  | m :: lrest, _ =>
      exact ⟨(maybe_shift_more m lrest).batch, (maybe_shift_more m lrest).queueRest,
        rfl, maybe_shift_more_batch_ne m lrest, maybe_shift_more_append m lrest⟩

/-- Witness for C4 at a concrete input: one command message in each queue. -/
theorem c4_witness :
    ([cmdMsgF] : List Msg) ≠ [] ∧
      ∃ batch ltail, handle_message [cmdMsgF] [cmdMsgG] = some ⟨batch, true, ltail, [cmdMsgG]⟩ ∧
        batch ≠ [] ∧ batch ++ ltail = [cmdMsgF] :=
  ⟨by decide, c4_local_queue_priority [cmdMsgF] [cmdMsgG] (by decide)⟩

/-- C3 (amended): every batch handed to the history multidab handler (that
is, every batch of at least two messages) contains at most
`MAX_MULTIDAB_MESSAGES` messages, and the code's running early-exit dab-area
estimate of the batch is at most `MAX_MULTIDAB_AREA`. (The claim's full
dab-area sum can exceed `MAX_MULTIDAB_AREA` plus any single dab's area when
the estimate saturates at exactly `MAX_MULTIDAB_AREA`; see the
counterexample.) -/
theorem c3_amended_batch_bounds (l r : List Msg) (res : HandleMessageResult)
    (h : handle_message l r = some res) (h2 : 2 ≤ res.batch.length) :
    res.batch.length ≤ MAX_MULTIDAB_MESSAGES ∧
      run_estimate res.batch ≤ MAX_MULTIDAB_AREA := by
  match l, r, h with
  | m :: lrest, r, h =>
      simp only [handle_message, Option.some.injEq] at h
      subst h
      exact maybe_shift_more_bounds m lrest h2
  | [], m :: rrest, h =>
      simp only [handle_message, Option.some.injEq] at h
      subst h
      exact maybe_shift_more_bounds m rrest h2

/-- Witness for C3 (amended) at a concrete input: a two-message batch of
small pixel-dab messages. -/
theorem c3_amended_witness :
    handle_message [dabsMsgD, dabsMsgE] [] =
        some ⟨[dabsMsgD, dabsMsgE], true, [], []⟩ ∧
      2 ≤ (⟨[dabsMsgD, dabsMsgE], true, [], []⟩ : HandleMessageResult).batch.length ∧
      ((⟨[dabsMsgD, dabsMsgE], true, [], []⟩ : HandleMessageResult).batch.length ≤
          MAX_MULTIDAB_MESSAGES ∧
        run_estimate (⟨[dabsMsgD, dabsMsgE], true, [], []⟩ : HandleMessageResult).batch ≤
          MAX_MULTIDAB_AREA) :=
  ⟨by decide, by decide,
    c3_amended_batch_bounds [dabsMsgD, dabsMsgE] [] _ (by decide) (by decide)⟩

/-- C3 counterexample: the running estimate saturates at exactly
`MAX_MULTIDAB_AREA` after `dabsMsgA` and `dabsMsgB` (8 radius-128 pixel dabs
each), whereupon `dabsMsgC` (two radius-255 dabs, 260100 area each) is
accepted into the batch without any of its dabs being counted. The claim's
cumulative dab-area estimate of the dispatched batch (1568776) exceeds
`MAX_MULTIDAB_AREA` plus even the largest single dab area of the batch
(1048576 + 260100), refuting the claimed bound. -/
theorem c3_counterexample :
    handle_message [dabsMsgA, dabsMsgB, dabsMsgC] [] =
        some ⟨[dabsMsgA, dabsMsgB, dabsMsgC], true, [], []⟩ ∧
      2 ≤ ([dabsMsgA, dabsMsgB, dabsMsgC] : List Msg).length ∧
      MAX_MULTIDAB_AREA + batch_max_dab_area [dabsMsgA, dabsMsgB, dabsMsgC] <
        true_batch_area [dabsMsgA, dabsMsgB, dabsMsgC] := by
  refine ⟨by decide, by decide, by decide⟩

/-- C9: calling `DP_paint_engine_preview_dabs_inc` with `count ≤ 0` is a
complete no-op: the engine state is unchanged and no effect (no message
incref, no preview allocation, no queue push, no semaphore post) happens. -/
theorem c9_preview_dabs_inc_nonpositive_noop (pe : ProducerState)
    (layerId count : Int) (msgs : List Msg) (h : count ≤ 0) :
    preview_dabs_inc pe layerId count msgs = (pe, []) := by
  unfold preview_dabs_inc
  rw [if_neg (by omega)]

/-- Witness for C9 at a concrete input. -/
theorem c9_witness :
    ((-3 : Int) ≤ 0) ∧
      preview_dabs_inc producerState0 1 (-3) [cmdMsgF] = (producerState0, []) :=
  ⟨by decide, c9_preview_dabs_inc_nonpositive_noop producerState0 1 (-3) [cmdMsgF] (by decide)⟩

/-- C1 (code bug): submitting two remote LaserTrail messages with the same
context id (5) in one `handle_inc` call fires the laser-trail callback
TWICE for that context, not once: `handle_laser_trail`'s `count == 0` branch
records the first context id in `users[0]` without marking it `active`, so
its second message re-appends it. `handle_move_pointer` has the identical
slip for the move-pointer callback. (All firings do deliver the latest
message's values.) -/
theorem c1_laser_callback_fires_twice_for_first_context :
    ((handle_inc aclPassAll false 0 initMeta [] [laserMsg1, laserMsg2]).events =
        [IncEvent.laserTrail 5 40 222, IncEvent.laserTrail 5 40 222])
    ∧ ((handle_inc aclPassAll false 0 initMeta [] [mpMsg1, mpMsg2]).events =
        [IncEvent.movePointer 6 30 40, IncEvent.movePointer 6 30 40]) := by
  refine ⟨by decide, by decide⟩

/-- `should_push_message_remote` hands its message to the ACL state machine
exactly once, appending it to the invocation trace. -/
theorem should_push_remote_trace (step : AclStep) (s : IncSt) (m : Msg) :
    ((should_push_remote step s m).2).aclTrace = s.aclTrace ++ [m] := rfl

/-- The `push_messages` loop hands each remaining message to the ACL state
machine exactly once, in order. -/
theorem push_rest_trace (step : AclStep) : ∀ (msgs : List Msg) (s : IncSt),
    ((push_rest (should_push_remote step) s msgs).2.1).aclTrace = s.aclTrace ++ msgs
  | [], s => by simp [push_rest]
  | m :: rest, s => by
      unfold push_rest
      dsimp only
      split
      · have ih := push_rest_trace step rest (should_push_remote step s m).2
        rw [ih, should_push_remote_trace]
        simp
      · have ih := push_rest_trace step rest (should_push_remote step s m).2
        rw [ih, should_push_remote_trace]
        simp

/-- The scan loop of `handle_inc` hands each message to the ACL state machine
exactly once, in order, regardless of where the first pushable message sits. -/
theorem scan_push_trace (step : AclStep) : ∀ (msgs : List Msg) (s : IncSt),
    ((scan_push (should_push_remote step) s msgs).2.1).aclTrace = s.aclTrace ++ msgs
  | [], s => by simp [scan_push]
  | m :: rest, s => by
      unfold scan_push
      dsimp only
      split
      · rw [push_rest_trace step rest (should_push_remote step s m).2,
          should_push_remote_trace]
        simp
      · rw [scan_push_trace step rest (should_push_remote step s m).2,
          should_push_remote_trace]
        simp

/-- C8: for every `handle_inc` call with `local = false`, the ACL state
machine's handle function is invoked exactly once per message of the batch,
in submission order: the trace of messages handed to `DP_acl_state_handle`
is the submitted message list itself. -/
theorem c8_acl_handled_once_per_message (step : AclStep) (a0 : AclSt)
    (mb0 : MetaBuffer) (queue msgs : List Msg) :
    (handle_inc step false a0 mb0 queue msgs).aclTrace = msgs := by
  unfold handle_inc
  dsimp only
  rw [if_neg Bool.false_ne_true, scan_push_trace]
  simp

/-- Lists whose elements all sit in a single callback phase are sorted by
phase. -/
theorem phase_homog_pairwise (l : List IncEvent) (k : Nat)
    (h : ∀ e ∈ l, incPhase e = k) :
    l.Pairwise (fun e1 e2 => incPhase e1 ≤ incPhase e2) :=
  List.pairwise_of_forall_mem_list fun a ha b hb => by rw [h a ha, h b hb]

/-- Every event `emit_meta_events` puts in its first segment is an
ACL-changed event, in the laser segment a laser event, and so on. -/
theorem emit_meta_events_phases (mb : MetaBuffer) :
    (emit_meta_events mb).Pairwise (fun e1 e2 => incPhase e1 ≤ incPhase e2) := by
  unfold emit_meta_events
  have h0 : ∀ e ∈ (if mb.aclChangeFlags &&& DP_ACL_STATE_CHANGE_MASK ≠ 0 then
      [IncEvent.aclsChanged (mb.aclChangeFlags &&& DP_ACL_STATE_CHANGE_MASK)]
    else []), incPhase e = 0 := by
    intro e he
    split at he <;> simp_all [incPhase]
  have h1 : ∀ e ∈ (List.range mb.laser.count).map (fun i =>
      IncEvent.laserTrail (mb.laser.users i)
        (mb.laser.buffers (mb.laser.users i)).persistence
        (mb.laser.buffers (mb.laser.users i)).color), incPhase e = 1 := by
    intro e he
    simp only [List.mem_map] at he
    obtain ⟨i, _, rfl⟩ := he
    rfl
  have h2 : ∀ e ∈ (List.range mb.cursor.count).map (fun i =>
      IncEvent.movePointer (mb.cursor.users i)
        (mb.cursor.positions (mb.cursor.users i)).1
        (mb.cursor.positions (mb.cursor.users i)).2), incPhase e = 2 := by
    intro e he
    simp only [List.mem_map] at he
    obtain ⟨i, _, rfl⟩ := he
    rfl
  have h3 : ∀ e ∈ (if mb.haveDefaultLayer then
      [IncEvent.defaultLayerSet mb.defaultLayer] else []), incPhase e = 3 := by
    intro e he
    split at he <;> simp_all [incPhase]
  rw [List.pairwise_append]
  refine ⟨?_, ?_, ?_⟩
  · rw [List.pairwise_append]
    refine ⟨?_, ?_, ?_⟩
    · rw [List.pairwise_append]
      refine ⟨phase_homog_pairwise _ 0 h0, phase_homog_pairwise _ 1 h1, ?_⟩
      intro a ha b hb
      rw [h0 a ha, h1 b hb]
      omega
    · exact phase_homog_pairwise _ 2 h2
    · intro a ha b hb
      rw [List.mem_append] at ha
      rcases ha with ha | ha
      · rw [h0 a ha, h2 b hb]; omega
      · rw [h1 a ha, h2 b hb]; omega
  · exact phase_homog_pairwise _ 3 h3
  · intro a ha b hb
    rw [List.mem_append] at ha
    rcases ha with ha | ha
    · rw [List.mem_append] at ha
      rcases ha with ha | ha
      · rw [h0 a ha, h3 b hb]; omega
      · rw [h1 a ha, h3 b hb]; omega
    · rw [h2 a ha, h3 b hb]; omega

/-- An ACL-changed event occurs in `emit_meta_events` iff the masked change
flags are nonzero. -/
theorem emit_meta_events_acl_iff (mb : MetaBuffer) :
    (∃ m, IncEvent.aclsChanged m ∈ emit_meta_events mb) ↔
      mb.aclChangeFlags &&& DP_ACL_STATE_CHANGE_MASK ≠ 0 := by
  unfold emit_meta_events
  constructor
  · rintro ⟨m, hm⟩
    simp only [List.mem_append, List.mem_map] at hm
    rcases hm with ((hm | ⟨i, _, hi⟩) | ⟨i, _, hi⟩) | hm
    · split at hm <;> simp_all
    · exact absurd hi (by simp)
    · exact absurd hi (by simp)
    · split at hm <;> simp_all
  · intro h
    exact ⟨mb.aclChangeFlags &&& DP_ACL_STATE_CHANGE_MASK,
      by simp [List.mem_append, if_pos h]⟩

/-- A default-layer event occurs in `emit_meta_events` iff a default-layer
message was recorded, and then it carries the recorded (last) layer id. -/
theorem emit_meta_events_dl_iff (mb : MetaBuffer) :
    (∃ i, IncEvent.defaultLayerSet i ∈ emit_meta_events mb) ↔
      mb.haveDefaultLayer = true := by
  unfold emit_meta_events
  constructor
  · rintro ⟨m, hm⟩
    simp only [List.mem_append, List.mem_map] at hm
    rcases hm with ((hm | ⟨i, _, hi⟩) | ⟨i, _, hi⟩) | hm
    · split at hm <;> simp_all
    · exact absurd hi (by simp)
    · exact absurd hi (by simp)
    · split at hm <;> simp_all
  · intro h
    exact ⟨mb.defaultLayer, by simp [List.mem_append, h]⟩

/-- How many laser-trail events an event list holds. -/
theorem emit_meta_events_laser_count (mb : MetaBuffer) :
    (emit_meta_events mb).countP (fun e => incPhase e = 1) = mb.laser.count := by
  unfold emit_meta_events
  rw [List.countP_append, List.countP_append, List.countP_append]
  have e0 : List.countP (fun e => decide (incPhase e = 1))
      (if mb.aclChangeFlags &&& DP_ACL_STATE_CHANGE_MASK ≠ 0 then
        [IncEvent.aclsChanged (mb.aclChangeFlags &&& DP_ACL_STATE_CHANGE_MASK)]
      else []) = 0 := by
    split <;> simp [incPhase]
  have e1 : List.countP (fun e => decide (incPhase e = 1))
      ((List.range mb.laser.count).map (fun i =>
        IncEvent.laserTrail (mb.laser.users i)
          (mb.laser.buffers (mb.laser.users i)).persistence
          (mb.laser.buffers (mb.laser.users i)).color)) = mb.laser.count := by
    rw [List.countP_map]
    have htrue : ((fun e => decide (incPhase e = 1)) ∘ fun i =>
        IncEvent.laserTrail (mb.laser.users i)
          (mb.laser.buffers (mb.laser.users i)).persistence
          (mb.laser.buffers (mb.laser.users i)).color) = fun _ => true :=
      funext fun i => rfl
    rw [htrue, congrFun List.countP_true, List.length_range]
  have e2 : List.countP (fun e => decide (incPhase e = 1))
      ((List.range mb.cursor.count).map (fun i =>
        IncEvent.movePointer (mb.cursor.users i)
          (mb.cursor.positions (mb.cursor.users i)).1
          (mb.cursor.positions (mb.cursor.users i)).2)) = 0 := by
    rw [List.countP_map]
    simp [incPhase, Function.comp]
  have e3 : List.countP (fun e => decide (incPhase e = 1))
      (if mb.haveDefaultLayer then [IncEvent.defaultLayerSet mb.defaultLayer]
      else []) = 0 := by
    split <;> simp [incPhase]
  omega

/-- How many move-pointer events an event list holds. -/
theorem emit_meta_events_cursor_count (mb : MetaBuffer) :
    (emit_meta_events mb).countP (fun e => incPhase e = 2) = mb.cursor.count := by
  unfold emit_meta_events
  rw [List.countP_append, List.countP_append, List.countP_append]
  have e0 : List.countP (fun e => decide (incPhase e = 2))
      (if mb.aclChangeFlags &&& DP_ACL_STATE_CHANGE_MASK ≠ 0 then
        [IncEvent.aclsChanged (mb.aclChangeFlags &&& DP_ACL_STATE_CHANGE_MASK)]
      else []) = 0 := by
    split <;> simp [incPhase]
  have e1 : List.countP (fun e => decide (incPhase e = 2))
      ((List.range mb.laser.count).map (fun i =>
        IncEvent.laserTrail (mb.laser.users i)
          (mb.laser.buffers (mb.laser.users i)).persistence
          (mb.laser.buffers (mb.laser.users i)).color)) = 0 := by
    rw [List.countP_map]
    simp [incPhase, Function.comp]
  have e2 : List.countP (fun e => decide (incPhase e = 2))
      ((List.range mb.cursor.count).map (fun i =>
        IncEvent.movePointer (mb.cursor.users i)
          (mb.cursor.positions (mb.cursor.users i)).1
          (mb.cursor.positions (mb.cursor.users i)).2)) = mb.cursor.count := by
    rw [List.countP_map]
    have htrue : ((fun e => decide (incPhase e = 2)) ∘ fun i =>
        IncEvent.movePointer (mb.cursor.users i)
          (mb.cursor.positions (mb.cursor.users i)).1
          (mb.cursor.positions (mb.cursor.users i)).2) = fun _ => true :=
      funext fun i => rfl
    rw [htrue, congrFun List.countP_true, List.length_range]
  have e3 : List.countP (fun e => decide (incPhase e = 2))
      (if mb.haveDefaultLayer then [IncEvent.defaultLayerSet mb.defaultLayer]
      else []) = 0 := by
    split <;> simp [incPhase]
  omega

/-- The `push_messages` loop's final state is the fold of `should_push`'s
state transition over the remaining messages: the push decisions do not feed
back into the ACL/meta state. -/
theorem push_rest_state (should : IncSt → Msg → Bool × IncSt) :
    ∀ (msgs : List Msg) (s : IncSt),
    (push_rest should s msgs).2.1 = List.foldl (fun s m => (should s m).2) s msgs
  | [], _ => rfl
  | m :: rest, s => by
      unfold push_rest
      dsimp only
      rw [List.foldl_cons]
      split <;> exact push_rest_state should rest (should s m).2

/-- The scan loop's final state is likewise the fold of `should_push`'s state
transition over the whole batch. -/
theorem scan_push_state (should : IncSt → Msg → Bool × IncSt) :
    ∀ (msgs : List Msg) (s : IncSt),
    (scan_push should s msgs).2.1 = List.foldl (fun s m => (should s m).2) s msgs
  | [], _ => rfl
  | m :: rest, s => by
      unfold scan_push
      dsimp only
      rw [List.foldl_cons]
      split
      · exact push_rest_state should rest (should s m).2
      · exact scan_push_state should rest (should s m).2

/-- One unfiltered `should_push_message_remote` step records a default-layer
message (last wins) and leaves the default-layer fields alone otherwise. -/
theorem should_push_remote_dl_step (step : AclStep)
    (hstep : ∀ a m, (step a m).2 % 256 &&& DP_ACL_STATE_FILTERED_BIT = 0)
    (s : IncSt) (m : Msg) :
    ((should_push_remote step s m).2.meta.haveDefaultLayer
        = (s.meta.haveDefaultLayer ||
            (match m.body with
             | .defaultLayer _ => true
             | _ => false)))
    ∧ ((should_push_remote step s m).2.meta.defaultLayer
        = (match m.body with
           | .defaultLayer i => i
           | _ => s.meta.defaultLayer)) := by
  unfold should_push_remote
  dsimp only
  rw [if_neg (by rw [hstep s.acl m]; simp)]
  rcases m with ⟨u, c, b⟩
  rcases b <;> simp [remote_meta_update]

/-- Folding unfiltered remote steps over a batch: a default-layer message was
recorded iff the batch contains one, and the recorded id is the last such
message's layer id. -/
theorem foldl_remote_dl (step : AclStep)
    (hstep : ∀ a m, (step a m).2 % 256 &&& DP_ACL_STATE_FILTERED_BIT = 0) :
    ∀ (msgs : List Msg) (s : IncSt),
    ((List.foldl (fun s m => (should_push_remote step s m).2) s msgs).meta.haveDefaultLayer
        = (s.meta.haveDefaultLayer || has_dl msgs))
    ∧ ((List.foldl (fun s m => (should_push_remote step s m).2) s msgs).meta.defaultLayer
        = dl_last msgs s.meta.defaultLayer)
  | [], s => by simp [has_dl, dl_last]
  | m :: rest, s => by
      rw [List.foldl_cons]
      obtain ⟨ih1, ih2⟩ := foldl_remote_dl step hstep rest (should_push_remote step s m).2
      obtain ⟨h1, h2⟩ := should_push_remote_dl_step step hstep s m
      constructor
      · rw [ih1, h1]
        rcases m with ⟨u, c, b⟩
        rcases b <;> simp [has_dl, Bool.or_assoc]
      · rw [ih2, h2]
        rcases m with ⟨u, c, b⟩
        rcases b <;> simp [dl_last]

/-- C6: the callbacks of one `handle_inc` call fire in the fixed phase order
ACL-changed → laser trails → cursor moves → default layer: the emitted event
list is sorted by phase, it is exactly the emission of the final meta buffer
(ACL-changed first and only when the accumulated masked change flags are
nonzero; one laser/cursor callback per tracked context entry; default-layer
last, only when seen, with the recorded last layer id — and, for a remote
batch whose messages the ACL filter passes, a default-layer message was seen
iff the batch contains one and the recorded id is the last such message's
layer id). -/
theorem c6_callback_order (step : AclStep) (isLocal : Bool) (a0 : AclSt)
    (mb0 : MetaBuffer) (queue msgs : List Msg) :
    ((handle_inc step isLocal a0 mb0 queue msgs).events).Pairwise
        (fun e1 e2 => incPhase e1 ≤ incPhase e2)
    ∧ (handle_inc step isLocal a0 mb0 queue msgs).events =
        emit_meta_events (handle_inc step isLocal a0 mb0 queue msgs).meta
    ∧ ((∃ m, IncEvent.aclsChanged m ∈ (handle_inc step isLocal a0 mb0 queue msgs).events) ↔
        (handle_inc step isLocal a0 mb0 queue msgs).meta.aclChangeFlags &&&
          DP_ACL_STATE_CHANGE_MASK ≠ 0)
    ∧ ((∃ i, IncEvent.defaultLayerSet i ∈
          (handle_inc step isLocal a0 mb0 queue msgs).events) ↔
        (handle_inc step isLocal a0 mb0 queue msgs).meta.haveDefaultLayer = true)
    ∧ ((handle_inc step isLocal a0 mb0 queue msgs).events.countP
          (fun e => incPhase e = 1) =
        (handle_inc step isLocal a0 mb0 queue msgs).meta.laser.count)
    ∧ ((handle_inc step isLocal a0 mb0 queue msgs).events.countP
          (fun e => incPhase e = 2) =
        (handle_inc step isLocal a0 mb0 queue msgs).meta.cursor.count)
    ∧ ((∀ a m, (step a m).2 % 256 &&& DP_ACL_STATE_FILTERED_BIT = 0) →
        isLocal = false →
        ((handle_inc step isLocal a0 mb0 queue msgs).meta.haveDefaultLayer =
            has_dl msgs
          ∧ (handle_inc step isLocal a0 mb0 queue msgs).meta.defaultLayer =
            dl_last msgs mb0.defaultLayer)) := by
  refine ⟨emit_meta_events_phases _, rfl, emit_meta_events_acl_iff _,
    emit_meta_events_dl_iff _, emit_meta_events_laser_count _,
    emit_meta_events_cursor_count _, ?_⟩
  intro hstep hlocal
  subst hlocal
  unfold handle_inc
  dsimp only
  rw [if_neg Bool.false_ne_true, scan_push_state]
  obtain ⟨h1, h2⟩ := foldl_remote_dl step hstep msgs
    ⟨a0,
      { mb0 with
        aclChangeFlags := 0
        laser := { mb0.laser with count := 0 }
        cursor := { mb0.cursor with count := 0 }
        haveDefaultLayer := false },
      []⟩
  exact ⟨by simpa using h1, by simpa using h2⟩

/-- Witness for C6 at a concrete remote batch: two default-layer messages
(ids 8 then 9) around a laser message, under a pass-all ACL filter — the
default-layer callback would fire with the LAST id, 9. -/
theorem c6_witness :
    (handle_inc aclPassAll false 0 initMeta [] [dlMsg1, laserMsg1, dlMsg2]).meta.haveDefaultLayer =
        has_dl [dlMsg1, laserMsg1, dlMsg2]
      ∧ (handle_inc aclPassAll false 0 initMeta [] [dlMsg1, laserMsg1, dlMsg2]).meta.defaultLayer =
        dl_last [dlMsg1, laserMsg1, dlMsg2] initMeta.defaultLayer :=
  (c6_callback_order aclPassAll false 0 initMeta [] [dlMsg1, laserMsg1, dlMsg2]).2.2.2.2.2.2
    (fun a m => by simp [aclPassAll, DP_ACL_STATE_FILTERED_BIT]) rfl

/-- Counting effects distributes over concatenation. -/
theorem countEff_append (e : FreeEff) : ∀ (l1 l2 : List FreeEff),
    countEff e (l1 ++ l2) = countEff e l1 + countEff e l2
  | [], l2 => by simp [countEff]
  | x :: xs, l2 => by
      simp only [List.cons_append, countEff, List.append_eq, countEff_append e xs l2]
      omega

/-- Freeing a preview slot never decrefs a message. -/
theorem countEff_decref_free_preview (u : Nat) (o : Option PreviewPayload) :
    countEff (.decref u) (free_preview_eff o) = 0 := by
  rcases o with _ | p
  · rfl
  · rcases p with _ | i <;> simp [free_preview_eff, countEff]

/-- Freeing a preview slot disposes exactly the payload it holds. -/
theorem countEff_dispose_free_preview (p : Nat) (o : Option PreviewPayload) :
    countEff (.dispose p) (free_preview_eff o) = slotDisposes o p := by
  rcases o with _ | q
  · rfl
  · rcases q with _ | i <;>
      simp [free_preview_eff, countEff, slotDisposes, FreeEff.dispose.injEq,
        PreviewPayload.real.injEq]

/-- Disposing a queue decrefs each of its messages exactly once. -/
theorem countEff_decref_dispose_queue (u : Nat) : ∀ (q : List Msg),
    countEff (.decref u) (message_queue_dispose_eff q) = countUid u q
  | [] => rfl
  | m :: rest => by
      simp only [message_queue_dispose_eff, List.map_cons, countEff, countUid]
      rw [show countEff (FreeEff.decref u) (List.map (fun m => FreeEff.decref m.uid) rest)
          = countUid u rest from countEff_decref_dispose_queue u rest]
      by_cases hm : m.uid = u
      · simp [hm]
      · simp [hm, FreeEff.decref.injEq]

/-- Disposing a queue never disposes a preview payload. -/
theorem countEff_dispose_dispose_queue (p : Nat) : ∀ (q : List Msg),
    countEff (.dispose p) (message_queue_dispose_eff q) = 0
  | [] => rfl
  | m :: rest => by
      have ih := countEff_dispose_dispose_queue p rest
      unfold message_queue_dispose_eff at ih ⊢
      simp only [List.map_cons, countEff, ih]
      simp

/-- The preview check of the local drain loop never decrefs. -/
theorem countEff_decref_local_preview (u : Nat) (m : Msg) :
    countEff (.decref u) (local_preview_eff m) = 0 := by
  unfold local_preview_eff
  split
  · exact countEff_decref_free_preview u _
  · rfl

/-- The preview check of the local drain loop disposes payload `p` exactly
when the message is an internal preview-install message holding it. -/
theorem countEff_dispose_local_preview (p : Nat) (m : Msg) :
    countEff (.dispose p) (local_preview_eff m) =
      if m.body = .internal (.preview (.real p)) then 1 else 0 := by
  rcases m with ⟨u, c, b⟩
  rcases b with ib | _ | _ | _ | _ | _ | _ <;>
    try simp [local_preview_eff, countEff]
  rcases ib with _ | _ | _ | _ | q <;>
    try simp [local_preview_eff, countEff]
  rcases q with _ | i
  · simp [local_preview_eff, free_preview_eff, countEff]
  · by_cases hi : i = p <;>
      simp [local_preview_eff, free_preview_eff, countEff, hi]

/-- The local drain loop decrefs each queued message exactly once. -/
theorem countEff_decref_drain_local (u : Nat) : ∀ (q : List Msg),
    countEff (.decref u) (drain_local_eff q) = countUid u q
  | [] => rfl
  | m :: rest => by
      simp only [drain_local_eff, countEff_append, countEff, countUid,
        countEff_decref_local_preview, countEff_decref_drain_local u rest]
      by_cases hm : m.uid = u
      · simp [hm]
      · simp [hm, FreeEff.decref.injEq]

/-- The local drain loop disposes payload `p` once per preview-install
message holding it. -/
theorem countEff_dispose_drain_local (p : Nat) : ∀ (q : List Msg),
    countEff (.dispose p) (drain_local_eff q) = countPreviewMsgs p q
  | [] => rfl
  | m :: rest => by
      simp only [drain_local_eff, countEff_append, countEff, countPreviewMsgs,
        countEff_dispose_local_preview, countEff_dispose_drain_local p rest]
      have hz : (if FreeEff.decref m.uid = FreeEff.dispose p then 1 else 0) = 0 :=
        if_neg (by simp)
      rw [hz]
      simp

/-- C2 (amended): on teardown, every message still enqueued in either queue
is decref'd exactly once, and every internal preview-install message
remaining in the LOCAL queue has its payload disposed exactly once (as do the
pending and the installed preview slot); preview-install messages in the
remote queue are only decref'd — their payloads are NOT disposed. -/
theorem c2_amended_free_join_effects (nextPreview installedPreview : Option PreviewPayload)
    (remoteQueue localQueue : List Msg) :
    (∀ u, countEff (.decref u)
        (free_join_eff nextPreview installedPreview remoteQueue localQueue) =
      countUid u remoteQueue + countUid u localQueue)
    ∧ (∀ p, countEff (.dispose p)
        (free_join_eff nextPreview installedPreview remoteQueue localQueue) =
      slotDisposes nextPreview p + countPreviewMsgs p localQueue +
        slotDisposes installedPreview p) := by
  constructor
  · intro u
    simp only [free_join_eff, countEff_append, countEff_decref_free_preview,
      countEff_decref_dispose_queue, countEff_decref_drain_local]
    omega
  · intro p
    simp only [free_join_eff, countEff_append, countEff_dispose_free_preview,
      countEff_dispose_dispose_queue, countEff_dispose_drain_local]
    omega

/-- C2 counterexample: with an internal preview-install message (payload 7)
enqueued on the REMOTE queue at teardown, that queued preview message's
payload is disposed zero times, not exactly once as the claim requires. -/
theorem c2_counterexample :
    countPreviewMsgs 7 ([previewMsgRemote] ++ ([] : List Msg)) = 1 ∧
      countEff (.dispose 7) (free_join_eff none none [previewMsgRemote] []) = 0 := by
  refine ⟨by decide, by decide⟩

/-- Clear flags on a group mean a clear flag at the group and clear children. -/
theorem hbvm_clear_group (i : Nat) (c hb hd : Bool) (cs : LPList)
    (h : hbvm_clear_node (.group i c hb hd cs) = true) :
    hb = false ∧ hbvm_clear_list cs = true := by
  unfold hbvm_clear_node at h
  rcases Bool.and_eq_true _ _ |>.mp h with ⟨h1, h2⟩
  exact ⟨by simpa using h1, h2⟩

/-- Clear flags on a list mean a clear head and a clear tail. -/
theorem hbvm_clear_cons (x : LP) (xs : LPList)
    (h : hbvm_clear_list (.cons x xs) = true) :
    hbvm_clear_node x = true ∧ hbvm_clear_list xs = true := by
  unfold hbvm_clear_list at h
  exact Bool.and_eq_true _ _ |>.mp h

mutual
/-- What the view-mode recursion marks on one node, for every mode: in Solo
mode exactly the leaves with no active-id node on their path; in every other
mode nothing (on trees whose hidden-by-view-mode flags start clear). -/
theorem solo_marks_node : ∀ (activeLayerId : Nat) (revealCensored : Bool)
    (mode : ViewMode) (t : LP), hbvm_clear_node t = true →
    hbvm_ids_node (set_lv_node activeLayerId mode revealCensored t) =
      (if mode = ViewMode.solo then solo_hidden_spec_node activeLayerId t else [])
  | a, rc, mode, .leaf i c hb hd, h => by
      have hb0 : hb = false := by
        simpa [hbvm_clear_node] using h
      subst hb0
      cases mode <;>
        by_cases hi : i = a <;>
          simp [set_lv_node, solo_decision, hbvm_ids_node, solo_hidden_spec_node, hi]
  | a, rc, ViewMode.solo, .group i c hb hd cs, h => by
      obtain ⟨hb0, hcs⟩ := hbvm_clear_group i c hb hd cs h
      subst hb0
      by_cases hi : i = a
      · have ih := solo_marks_list a rc ViewMode.normal cs hcs
        simp [set_lv_node, solo_decision, hbvm_ids_node, solo_hidden_spec_node, hi, ih]
      · have ih := solo_marks_list a rc ViewMode.solo cs hcs
        simp [set_lv_node, solo_decision, hbvm_ids_node, solo_hidden_spec_node, hi, ih]
  | a, rc, ViewMode.normal, .group i c hb hd cs, h => by
      obtain ⟨hb0, hcs⟩ := hbvm_clear_group i c hb hd cs h
      subst hb0
      have ih := solo_marks_list a rc ViewMode.normal cs hcs
      simp [set_lv_node, solo_decision, hbvm_ids_node, ih]
  | a, rc, ViewMode.frame, .group i c hb hd cs, h => by
      obtain ⟨hb0, hcs⟩ := hbvm_clear_group i c hb hd cs h
      subst hb0
      have ih := solo_marks_list a rc ViewMode.frame cs hcs
      simp [set_lv_node, solo_decision, hbvm_ids_node, ih]
  | a, rc, ViewMode.onionSkin, .group i c hb hd cs, h => by
      obtain ⟨hb0, hcs⟩ := hbvm_clear_group i c hb hd cs h
      subst hb0
      have ih := solo_marks_list a rc ViewMode.onionSkin cs hcs
      simp [set_lv_node, solo_decision, hbvm_ids_node, ih]
/-- `solo_marks_node` over lists. -/
theorem solo_marks_list : ∀ (activeLayerId : Nat) (revealCensored : Bool)
    (mode : ViewMode) (l : LPList), hbvm_clear_list l = true →
    hbvm_ids_list (set_lv_list activeLayerId mode revealCensored l) =
      (if mode = ViewMode.solo then solo_hidden_spec_list activeLayerId l else [])
  | _, _, mode, .nil, _ => by
      cases mode <;> simp [set_lv_list, hbvm_ids_list, solo_hidden_spec_list]
  | a, rc, mode, .cons x xs, h => by
      obtain ⟨hx, hxs⟩ := hbvm_clear_cons x xs h
      have ihx := solo_marks_node a rc mode x hx
      have ihxs := solo_marks_list a rc mode xs hxs
      cases mode <;>
        simp_all [set_lv_list, hbvm_ids_list, solo_hidden_spec_list]
end

/-- C5 (amended): in Solo mode, applying the local view-mode layer props
marks as hidden-by-view-mode exactly those leaves that have no layer with the
active layer id on their path from the root (in particular their own id
differs from it); a layer with the active id switches its whole subtree to
Normal mode, so leaves under an active group stay visible, and groups are
never hidden by Solo mode. -/
theorem c5_amended_solo_hides (activeLayerId : Nat) (revealCensored : Bool)
    (forest : LPList) (h : hbvm_clear_list forest = true) :
    hbvm_ids_list (set_lv_list activeLayerId ViewMode.solo revealCensored forest) =
      solo_hidden_spec_list activeLayerId forest := by
  simpa using solo_marks_list activeLayerId revealCensored ViewMode.solo forest h

/-- Witness for C5 (amended) at a concrete forest: active leaf 3 stays, leaf
5 inside the non-active group 4 is hidden. -/
theorem c5_amended_witness :
    hbvm_clear_list soloTreeW = true ∧
      hbvm_ids_list (set_lv_list 3 ViewMode.solo false soloTreeW) =
        solo_hidden_spec_list 3 soloTreeW :=
  ⟨by decide, c5_amended_solo_hides 3 false soloTreeW (by decide)⟩

/-- C5 counterexample: with the active layer id 1 naming a GROUP that
contains the leaf 2, Solo mode hides nothing — but the claim ("exactly the
leaves whose id differs from the active layer id") demands leaf 2 hidden.
The set the code marks ([]) differs from the set the claim predicts ([2]). -/
theorem c5_counterexample :
    hbvm_ids_list (set_lv_list 1 ViewMode.solo false soloTree) = [] ∧
      claimed_solo_hidden_list 1 soloTree = [2] ∧
      hbvm_ids_list (set_lv_list 1 ViewMode.solo false soloTree) ≠
        claimed_solo_hidden_list 1 soloTree := by
  refine ⟨by decide, by decide, by decide⟩

/-- C10: `DP_paint_engine_active_layer_id_set` in Normal view mode changes
only the stored active layer id (even when the id differs), and it nulls the
memoised `prev_lpl` — the trigger for recomposition on the next tick —
exactly when the new id differs from the current one and the view mode is not
Normal; in Normal mode the next tick's `local_view_changed` guard is
unaffected. -/
theorem c10_active_layer_id_set (pe : Engine) (layerId : Nat) :
    (pe.localView.layerViewMode = ViewMode.normal →
      active_layer_id_set pe layerId =
        { pe with localView := { pe.localView with activeLayerId := layerId } })
    ∧ ((active_layer_id_set pe layerId).localView.prevLpl = none ↔
        (pe.localView.prevLpl = none ∨
          (layerId ≠ pe.localView.activeLayerId ∧
            pe.localView.layerViewMode ≠ ViewMode.normal)))
    ∧ (pe.localView.layerViewMode = ViewMode.normal →
        local_view_changed (active_layer_id_set pe layerId) = local_view_changed pe) := by
  obtain ⟨cat, hcs, np, pv, lv, vcs⟩ := pe
  obtain ⟨la, lf, lm, lr, li, lh, lp1, lp2⟩ := lv
  refine ⟨?_, ?_, ?_⟩
  · intro hm
    subst hm
    by_cases hid : la ≠ layerId
    · simp [active_layer_id_set, hid]
    · simp only [not_not] at hid
      subst hid
      simp [active_layer_id_set]
  · by_cases hid : la ≠ layerId <;> by_cases hm : lm ≠ ViewMode.normal <;>
      simp_all [active_layer_id_set, invalidate_local_view] <;>
      exact Or.inr fun hc => hid hc.symm
  · intro hm
    subst hm
    by_cases hid : la ≠ layerId
    · simp [active_layer_id_set, hid, local_view_changed]
    · simp only [not_not] at hid
      subst hid
      simp [active_layer_id_set, local_view_changed]

/-- Witness for C10: setting a new active layer id in Normal view mode
changes only that field. -/
theorem c10_witness :
    active_layer_id_set engine1 5 =
      { engine1 with localView := { engine1.localView with activeLayerId := 5 } } :=
  (c10_active_layer_id_set engine1 5).1 rfl

/-- The engine coming out of `set_local_layer_props` keeps the catchup slot,
the preview slots and the `prev_lpl` memoisation of the engine going in. -/
theorem set_local_layer_props_fields (env : Env) (pe : Engine) (cs : CS) :
    (set_local_layer_props env pe cs).1.catchup = pe.catchup ∧
      (set_local_layer_props env pe cs).1.nextPreview = pe.nextPreview ∧
      (set_local_layer_props env pe cs).1.localView.prevLpl = pe.localView.prevLpl := by
  unfold set_local_layer_props
  refine ⟨rfl, rfl, rfl⟩

/-- After `apply_local_layer_props`, `prev_lpl` memoises exactly the incoming
state's layer props list, and the catchup/pending-preview slots are
untouched. -/
theorem apply_local_layer_props_fields (env : Env) (pe : Engine) (cs : CS) :
    (apply_local_layer_props env pe cs).1.catchup = pe.catchup ∧
      (apply_local_layer_props env pe cs).1.nextPreview = pe.nextPreview ∧
      (apply_local_layer_props env pe cs).1.localView.prevLpl = some cs.lpl := by
  unfold apply_local_layer_props
  by_cases hprev : pe.localView.prevLpl = some cs.lpl
  · rw [if_pos hprev]
    split
    · exact ⟨rfl, rfl, hprev⟩
    · exact ⟨rfl, rfl, hprev⟩
  · rw [if_neg hprev]
    obtain ⟨h1, h2, h3⟩ := set_local_layer_props_fields env
      { pe with localView := { pe.localView with prevLpl := some cs.lpl } } cs
    exact ⟨h1, h2, h3⟩

/-- After any `tick`, the catchup slot holds -1, the pending-preview slot is
empty, and the local-view memoisation `prev_lpl` is non-null (a composing
tick re-memoises it, a non-composing tick required it non-null). -/
theorem tick_state_after (env : Env) (pe : Engine) :
    ((tick env pe).1).catchup = -1 ∧
      ((tick env pe).1).nextPreview = none ∧
      ((tick env pe).1).localView.prevLpl.isSome = true := by
  rcases henv : env.compareAndGet pe.historyCs with ⟨o, curs⟩
  unfold tick
  dsimp only
  rw [henv]
  dsimp only
  rcases o with _ | newCs <;> dsimp only <;>
    rcases hnp : pe.nextPreview with _ | v <;> dsimp only <;> split <;> refine ⟨?_, ?_, ?_⟩
  all_goals
    first
    | rfl
    | exact hnp
    | (rw [(apply_local_layer_props_fields env _ _).1]; done)
    | (rw [(apply_local_layer_props_fields env _ _).2.1]; done)
    | (rw [(apply_local_layer_props_fields env _ _).2.1]; exact hnp)
    | (dsimp only; rw [(apply_local_layer_props_fields env _ _).2.2]; rfl)
    | (rename_i hguard
       rcases hx : pe.localView.prevLpl with _ | y
       · exfalso
         apply hguard
         simp [local_view_changed, hx]
       · simp [hx])
    | (rename_i hguard
       exfalso
       apply hguard
       simp)

/-- C7: `DP_paint_engine_tick` is idempotent on a steady state. After any
tick, if the history has no new state to offer for the second call (and no
producer intervened, so no catchup value, no pending preview and no
local-view invalidation arrived in between), then the second tick call
invokes none of its callbacks and returns the engine state — in particular
`view_cs` — unchanged. -/
theorem c7_tick_steady_idempotent (env1 env2 : Env) (pe : Engine)
    (h : (env2.compareAndGet ((tick env1 pe).1).historyCs).1 = none) :
    tick env2 ((tick env1 pe).1) = (((tick env1 pe).1), []) := by
  obtain ⟨hc, hn, hp⟩ := tick_state_after env1 pe
  set q := (tick env1 pe).1 with hq
  clear_value q
  clear hq
  obtain ⟨cat, qhcs, qnp, qpv, qlv, qvcs⟩ := q
  simp only at hc hn hp h
  subst hc
  subst hn
  obtain ⟨la, lf, lm, lr, li, lh, lp1, lp2⟩ := qlv
  simp only at hp
  rcases lp1 with _ | y
  · simp at hp
  · rcases henv : env2.compareAndGet qhcs with ⟨o, curs⟩
    rw [henv] at h
    simp only at h
    subst h
    unfold tick
    dsimp only
    rw [henv]
    dsimp only [local_view_changed]
    simp

/-- Witness for C7: under an environment whose history never yields a new
state, a second tick after a first one (which consumes the pending catchup
42) does nothing. -/
theorem c7_witness :
    (trivialEnv.compareAndGet ((tick trivialEnv engine0).1).historyCs).1 = none ∧
      tick trivialEnv ((tick trivialEnv engine0).1) =
        (((tick trivialEnv engine0).1), []) :=
  ⟨rfl, c7_tick_steady_idempotent trivialEnv trivialEnv engine0 rfl⟩

end Drawdance
